import Mathlib

/-!
Verification of the FloProExcel managed tool-call gateway.

This file gives a shallow embedding, in Lean 4, of the networking core of the
repository:

* the edge gateway in `server/index.mjs` (origin allow-list, fixed-window rate
  limiter, credential allow-list + substitution and curated-model allow-list of
  the OpenRouter passthrough proxy, and the managed MCP JSON-RPC endpoint with
  its five Jamaica-market tools), and
* the gateway client in `src/tools` (server-token resolution, multi-server tool
  resolution, and the one-shot stale-catalog retry of `tools/call`).

JavaScript builtins that the code calls (`JSON.parse`, `new URL(..).origin`)
are represented as oracle inputs (the outcome of the parse is a parameter);
everything the repository itself computes is translated function by function.
-/

set_option maxRecDepth 4096

namespace FloPro

/-- JSON values, as produced by `JSON.parse` (numbers restricted to the
integers actually used by the gateway's validation paths). -/
inductive Json where
  | null
  | bool (b : Bool)
  | num (n : Int)
  | str (s : String)
  | arr (items : List Json)
  | obj (fields : List (String × Json))
deriving Repr

/-- Property access `j.key` on a parsed JSON value: defined only on objects,
first matching key wins (as in a JS object literal after parsing). -/
def Json.getField (j : Json) (key : String) : Option Json :=
  match j with
  | .obj fields => (fields.find? (fun p => p.1 == key)).map (fun p => p.2)
  | _ => none

/-- `typeof j.key === "string" ? j.key : dflt`. -/
def Json.strFieldOr (j : Json) (key : String) (dflt : String) : String :=
  match j.getField key with
  | some (.str s) => s
  | _ => dflt

/-! ### Kernel-reducible string primitives

The JS string builtins the gateway uses (`trim`, `toLowerCase`,
`toUpperCase`, prefix test, slicing, joining) are given character-list
implementations with the same semantics, so that closed instances evaluate
inside the kernel. -/

/-- `String.prototype.trim`. -/
def strTrim (s : String) : String :=
  ⟨((s.data.dropWhile Char.isWhitespace).reverse.dropWhile Char.isWhitespace).reverse⟩

/-- `String.prototype.toLowerCase` (ASCII range, as used here). -/
def strLower (s : String) : String := ⟨s.data.map Char.toLower⟩

/-- `String.prototype.toUpperCase` (ASCII range, as used here). -/
def strUpper (s : String) : String := ⟨s.data.map Char.toUpper⟩

/-- `String.prototype.startsWith`. -/
def strIsPrefixOf (p s : String) : Bool := p.data.isPrefixOf s.data

/-- `String.prototype.slice(n)` for ASCII paths. -/
def strDrop (s : String) (n : Nat) : String := ⟨s.data.drop n⟩

/-- `Array.prototype.join(sep)`. -/
def strJoin (sep : String) : List String → String
  | [] => ""
  | [x] => x
  | x :: rest => x ++ sep ++ strJoin sep rest

/-! ## shared/openrouter-curated-models.mjs -/

/-- `OPENROUTER_CURATED_MODELS` from `shared/openrouter-curated-models.mjs`. -/
def OPENROUTER_CURATED_MODELS : List String :=
  [ "google/gemini-3.1-pro-preview"
  , "anthropic/claude-sonnet-4.6"
  , "openai/gpt-5.2-codex"
  , "moonshotai/kimi-k2.5"
  , "minimax/minimax-m2.5" ]

/-- `MANAGED_OPENROUTER_API_KEY_SENTINEL`. -/
def MANAGED_OPENROUTER_API_KEY_SENTINEL : String := "managed-openrouter-key"

/-- `isOpenRouterCuratedModelId` (set membership in the curated list). -/
def isOpenRouterCuratedModelId (modelId : String) : Bool :=
  OPENROUTER_CURATED_MODELS.contains modelId

/-! ## server/index.mjs — OpenRouter passthrough proxy -/

/-- A Node HTTP header value: absent, a single string, or repeated values. -/
inductive HeaderVal where
  | absent
  | str (s : String)
  | list (vs : List String)
deriving Repr

/-- `hasUnmanagedClientCredentials(req)` from `server/index.mjs`: true when the
client supplied an `Authorization` or `x-api-key` header whose trimmed value is
non-empty and differs from the managed sentinel form. -/
def hasUnmanagedClientCredentials (auth xApiKey : HeaderVal) : Bool :=
  let managedBearer := "Bearer " ++ MANAGED_OPENROUTER_API_KEY_SENTINEL
  let managedApiKey := MANAGED_OPENROUTER_API_KEY_SENTINEL
  let authBad :=
    match auth with
    | .str a => (strTrim a).length > 0 && strTrim a != managedBearer
    | _ => false
  let keyStrBad :=
    match xApiKey with
    | .str k => (strTrim k).length > 0 && strTrim k != managedApiKey
    | _ => false
  let keyArrBad :=
    match xApiKey with
    | .list vs => vs.any (fun v => (strTrim v).length > 0 && strTrim v != managedApiKey)
    | _ => false
  authBad || keyStrBad || keyArrBad

/-- `normalizeOpenRouterPath(pathname, search)`. -/
def normalizeOpenRouterPath (pathname search : String) : String :=
  let pfx := "/api/openrouter/v1"
  let rawPath :=
    if strIsPrefixOf pfx pathname then
      (if (strDrop pathname pfx.length).data.isEmpty then "/"
       else strDrop pathname pfx.length)
    else "/"
  let normalizedPath := if strIsPrefixOf "/" rawPath then rawPath else "/" ++ rawPath
  normalizedPath ++ search

/-- `relativePath = relativePathWithQuery.split("?")[0]`. -/
def openRouterRelativePath (pathname search : String) : String :=
  ⟨(normalizeOpenRouterPath pathname search).data.takeWhile (fun c => c != '?')⟩

/-- `OPENROUTER_ROUTE_RULES`: allowed methods per passthrough endpoint. -/
def openRouterRouteRules (relativePath : String) : Option (List String) :=
  if relativePath == "/chat/completions" then some ["POST"]
  else if relativePath == "/responses" then some ["POST"]
  else if relativePath == "/models" then some ["GET"]
  else none

/-- Outcome of reading and JSON-parsing an inbound request body
(`readRequestBody` + `parseJsonBody`): the body stream either exceeds the byte
cap, fails to parse, or yields a JSON value (an empty body yields `{}`). -/
inductive BodyOutcome where
  | tooLarge
  | parseError
  | parsed (j : Json)
deriving Repr

/-- An inbound request to the OpenRouter passthrough. -/
structure ProxyRequest where
  method : String
  authorization : HeaderVal
  xApiKey : HeaderVal
  bodyOutcome : BodyOutcome
deriving Repr

/-- The single upstream fetch `handleOpenRouterProxy` can issue. -/
structure UpstreamRequest where
  method : String
  path : String
  authorization : String
  body : Option Json
deriving Repr

/-- Result of `handleOpenRouterProxy`: either a local response (no upstream
traffic at all) or the upstream fetch it performs. -/
inductive ProxyResult where
  | respond (status : Nat) (errorMessage : String)
  | forward (upstream : UpstreamRequest)
deriving Repr

/-- Error message of the credential rejection. -/
def unmanagedCredentialsMessage : String :=
  "Unmanaged client credentials are not accepted. Managed server credentials are applied automatically."

/-- Error message of the model allow-list rejection. -/
def modelNotAllowedMessage : String :=
  "Model is not allowed. Allowed models: " ++ strJoin ", " OPENROUTER_CURATED_MODELS

/-- `handleOpenRouterProxy(req, res, pathname, search)` from `server/index.mjs`,
with the server's `OPENROUTER_API_KEY` passed explicitly. -/
def handleOpenRouterProxy (apiKey : String) (req : ProxyRequest)
    (pathname search : String) : ProxyResult :=
  let relativePathWithQuery := normalizeOpenRouterPath pathname search
  let relativePath := openRouterRelativePath pathname search
  if hasUnmanagedClientCredentials req.authorization req.xApiKey then
    .respond 400 unmanagedCredentialsMessage
  else
    match openRouterRouteRules relativePath with
    | none => .respond 404 "Unsupported OpenRouter endpoint."
    | some allowedMethods =>
      if !(allowedMethods.contains req.method) then
        .respond 405 "Method not allowed for endpoint."
      else if req.method == "POST" then
        match req.bodyOutcome with
        | .tooLarge => .respond 413 "Request body exceeds limit."
        | .parseError => .respond 400 "Invalid JSON body."
        | .parsed parsed =>
          if relativePath == "/chat/completions" || relativePath == "/responses" then
            if !(isOpenRouterCuratedModelId (parsed.strFieldOr "model" "")) then
              .respond 400 modelNotAllowedMessage
            else
              .forward { method := req.method, path := relativePathWithQuery,
                         authorization := "Bearer " ++ apiKey, body := some parsed }
          else
            .forward { method := req.method, path := relativePathWithQuery,
                       authorization := "Bearer " ++ apiKey, body := some parsed }
      else
        .forward { method := req.method, path := relativePathWithQuery,
                   authorization := "Bearer " ++ apiKey, body := none }

/-! ## server/index.mjs — managed MCP tool validation -/

/-- Character class `[A-Z0-9.\-]` of the symbol regex. -/
def isSymbolChar (c : Char) : Bool :=
  (('A' ≤ c && c ≤ 'Z') || ('0' ≤ c && c ≤ '9') || c == '.' || c == '-')

/-- `normalizeSymbol(symbol)`: trim, uppercase, and require
`^[A-Z0-9.\-]{1,20}$`; non-strings and non-matching strings throw. -/
def normalizeSymbol (v : Option Json) : Except String String :=
  match v with
  | some (Json.str s) =>
    let normalized := strUpper (strTrim s)
    if decide (1 ≤ normalized.length) && decide (normalized.length ≤ 20)
        && normalized.data.all isSymbolChar then
      .ok normalized
    else
      .error "symbol must contain only letters, digits, dot, or dash."
  | _ => .error "symbol must be a string."

/-- `normalizeFrequency(value)`: case-insensitive `Annual`/`Quarterly`,
canonical casing on output. -/
def normalizeFrequency (v : Option Json) : Except String String :=
  match v with
  | some (Json.str s) =>
    let lower := strLower (strTrim s)
    if lower == "annual" then .ok "Annual"
    else if lower == "quarterly" then .ok "Quarterly"
    else .error "frequency must be Annual or Quarterly."
  | _ => .error "frequency must be Annual or Quarterly."

/-- `normalizeStatementType(value)`: case-insensitive `IS`/`BS`/`CF`. -/
def normalizeStatementType (v : Option Json) : Except String String :=
  match v with
  | some (Json.str s) =>
    let upper := strUpper (strTrim s)
    if upper == "IS" || upper == "BS" || upper == "CF" then .ok upper
    else .error "statement_type must be IS, BS, or CF."
  | _ => .error "statement_type must be IS, BS, or CF."

/-- Leading decimal digits of a character list (`parseInt` digit scan). -/
def takeDigits : List Char → List Char
  | [] => []
  | c :: rest => if c.isDigit then c :: takeDigits rest else []

/-- Value of a digit list. -/
def digitsToNat (ds : List Char) : Nat :=
  ds.foldl (fun acc c => acc * 10 + (c.toNat - 48)) 0

/-- JS `Number.parseInt(s, 10)`: skip leading whitespace, optional sign,
leading digit run; no digits means `NaN` (`none`). -/
def parseIntJS (s : String) : Option Int :=
  let cs := s.data.dropWhile Char.isWhitespace
  let signed : Bool × List Char :=
    match cs with
    | '-' :: r => (true, r)
    | '+' :: r => (false, r)
    | r => (false, r)
  let ds := takeDigits signed.2
  if ds.isEmpty then none
  else some ((if signed.1 then -1 else 1) * (digitsToNat ds : Int))

mutual

/-- JS `String(value)` on a parsed JSON value. -/
def jsToString : Json → String
  | .str s => s
  | .num n => toString n
  | .bool b => if b then "true" else "false"
  | .null => "null"
  | .arr items => strJoin "," (jsToStringArrItems items)
  | .obj _ => "[object Object]"

/-- Array elements under JS array-to-string: `null` renders empty. -/
def jsToStringArrItems : List Json → List String
  | [] => []
  | Json.null :: rest => "" :: jsToStringArrItems rest
  | j :: rest => jsToString j :: jsToStringArrItems rest

end

/-- `normalizeBoundedInt(value, {min, max, label})`. -/
def normalizeBoundedInt (v : Json) (minV maxV : Int) (label : String) :
    Except String Int :=
  match parseIntJS (jsToString v) with
  | none => .error (label ++ " must be an integer.")
  | some parsed =>
    if parsed < minV || parsed > maxV then
      .error (label ++ " must be between " ++ toString minV ++ " and "
        ++ toString maxV ++ ".")
    else .ok parsed

/-- `^\d{4}-\d{2}-\d{2}$` shape check plus extraction of (year, month, day). -/
def parseIsoDateParts (t : String) : Option (Nat × Nat × Nat) :=
  match t.data with
  | [y1, y2, y3, y4, h1, m1, m2, h2, d1, d2] =>
    if y1.isDigit && y2.isDigit && y3.isDigit && y4.isDigit && h1 == '-'
        && m1.isDigit && m2.isDigit && h2 == '-' && d1.isDigit && d2.isDigit then
      some (digitsToNat [y1, y2, y3, y4], digitsToNat [m1, m2], digitsToNat [d1, d2])
    else none
  | _ => none

/-- `normalizeIsoDate(value, label)`: exact `YYYY-MM-DD` shape, and
`new Date(trimmed + "T00:00:00Z")` must not be `NaN` (V8 accepts months 01-12
and days 01-31 in the ISO fast path and overflows days into the next month;
out-of-range fields make the parse invalid). -/
def normalizeIsoDate (v : Option Json) (label : String) : Except String String :=
  match v with
  | some (Json.str s) =>
    let trimmed := strTrim s
    match parseIsoDateParts trimmed with
    | none => .error (label ++ " must be YYYY-MM-DD.")
    | some (_, m, d) =>
      if decide (1 ≤ m) && decide (m ≤ 12) && decide (1 ≤ d) && decide (d ≤ 31) then
        .ok trimmed
      else .error (label ++ " is not a valid date.")
  | _ => .error (label ++ " must be YYYY-MM-DD.")

/-- `encodeURIComponent` restricted to its uses here: every call site passes a
`normalizeSymbol` result, i.e. a string over `[A-Z0-9.\-]`, on which
`encodeURIComponent` is the identity. -/
def encodeSymbolComponent (s : String) : String := s

/-- The pure validation-and-path-building prefix of `runManagedMcpTool(name,
argsRaw)`: everything the function computes before its first upstream
`fetchJamaicaJson` call. `Except.ok p` means validation passed and the upstream
GET hits endpoint path `p`; `Except.error m` is the thrown validation message.
`currentYear` stands for `new Date().getUTCFullYear()`. -/
def runManagedMcpToolValidate (currentYear : Int) (name : String)
    (argsRaw : Json) : Except String String :=
  let args : Json :=
    match argsRaw with
    | Json.obj fields => Json.obj fields
    | Json.arr items => Json.arr items
    | _ => Json.obj []
  if name == "jm_list_companies" then
    match args.getField "limit" with
    | none => .ok "/company"
    | some v =>
      match normalizeBoundedInt v 1 500 "limit" with
      | .error e => .error e
      | .ok _ => .ok "/company"
  else if name == "jm_get_company" then
    match normalizeSymbol (args.getField "symbol") with
    | .error e => .error e
    | .ok symbol => .ok ("/company/" ++ encodeSymbolComponent symbol)
  else if name == "jm_get_statement" then
    match normalizeSymbol (args.getField "symbol") with
    | .error e => .error e
    | .ok symbol =>
      match normalizeFrequency (args.getField "frequency") with
      | .error e => .error e
      | .ok frequency =>
        match normalizeStatementType (args.getField "statement_type") with
        | .error e => .error e
        | .ok statementType =>
          let base := "/statement/" ++ encodeSymbolComponent symbol ++ "/"
            ++ frequency ++ "/" ++ statementType
          match args.getField "year" with
          | none => .ok base
          | some y =>
            match normalizeBoundedInt y 1990 (currentYear + 1) "year" with
            | .error e => .error e
            | .ok year => .ok (base ++ "/" ++ toString year)
  else if name == "jm_get_all_statements" then
    match normalizeSymbol (args.getField "symbol") with
    | .error e => .error e
    | .ok symbol =>
      match normalizeFrequency (args.getField "frequency") with
      | .error e => .error e
      | .ok frequency =>
        match (match args.getField "years" with
               | none => Except.ok (5 : Int)
               | some y => normalizeBoundedInt y 1 10 "years") with
        | .error e => .error e
        | .ok years =>
          .ok ("/all_statements/" ++ encodeSymbolComponent symbol ++ "/"
            ++ frequency ++ "/" ++ toString years)
  else if name == "jm_get_price_data" then
    match normalizeSymbol (args.getField "symbol") with
    | .error e => .error e
    | .ok symbol =>
      match normalizeIsoDate (args.getField "start_date") "start_date" with
      | .error e => .error e
      | .ok startDate =>
        match normalizeIsoDate (args.getField "end_date") "end_date" with
        | .error e => .error e
        | .ok endDate =>
          if decide (endDate < startDate) then
            .error "start_date must be on or before end_date."
          else
            .ok ("/price_data/" ++ encodeSymbolComponent symbol ++ "/"
              ++ startDate ++ "/" ++ endDate)
  else .error ("Unknown tool: " ++ name)

/-! ## server/index.mjs — managed MCP JSON-RPC dispatcher -/

/-- Result payload of a managed JSON-RPC success response. -/
inductive McpRpcResult where
  | initializeInfo
  | initializedAck
  | toolsList
deriving Repr

/-- Response of `handleManagedMcpRpc`.  `rpcSuccess`/`rpcError` carry a JSON
body; `emptyNoBody` is the HTTP 204 acknowledgement with an empty body;
`toolCallUpstream` is a validated `tools/call` proceeding to its upstream
fetch (its eventual body depends on the upstream response). -/
inductive McpResponse where
  | plainError (status : Nat) (message : String)
  | rpcError (status : Nat) (idEcho : Json) (code : Int) (message : String)
  | rpcSuccess (status : Nat) (idEcho : Option Json) (result : McpRpcResult)
  | emptyNoBody
  | toolCallUpstream (idEcho : Option Json) (endpointPath : String)
deriving Repr

/-- `id ?? null` as used by `buildJsonRpcError`. -/
def idOrNull (id : Option Json) : Json := id.getD Json.null

/-- `id === undefined || id === null`. -/
def isNullishId (id : Option Json) : Bool :=
  match id with
  | none => true
  | some Json.null => true
  | some _ => false

/-- `typeof payload?.method === "string" ? payload.method : ""`. -/
def rpcMethodOf (payload : Json) : String := payload.strFieldOr "method" ""

/-- `payload?.id` (`none` = absent/undefined). -/
def rpcIdOf (payload : Json) : Option Json := payload.getField "id"

/-- `typeof params?.name === "string" ? params.name : ""`. -/
def rpcCallNameOf (payload : Json) : String :=
  match payload.getField "params" with
  | some p => p.strFieldOr "name" ""
  | none => ""

/-- `params?.arguments`, with absent/undefined represented as `Json.null`
(both are falsy, so `runManagedMcpTool` coerces either to `{}`). -/
def rpcCallArgsOf (payload : Json) : Json :=
  match payload.getField "params" with
  | some p => (p.getField "arguments").getD Json.null
  | none => Json.null

/-- `handleManagedMcpRpc(req, res)` from `server/index.mjs`, up to the point
where a validated `tools/call` performs its upstream fetch. -/
def handleManagedMcpRpc (currentYear : Int) (httpMethod : String)
    (body : BodyOutcome) : McpResponse :=
  if httpMethod != "POST" then .plainError 405 "Method not allowed"
  else
    match body with
    | .tooLarge => .plainError 413 "Request body exceeds limit."
    | .parseError => .rpcError 400 Json.null (-32700) "Invalid JSON body."
    | .parsed payload =>
      let id := rpcIdOf payload
      let method := rpcMethodOf payload
      if method == "initialize" then
        .rpcSuccess 200 id .initializeInfo
      else if method == "notifications/initialized" then
        if isNullishId id then .emptyNoBody
        else .rpcSuccess 200 id .initializedAck
      else if method == "tools/list" then
        .rpcSuccess 200 id .toolsList
      else if method == "tools/call" then
        let name := rpcCallNameOf payload
        if name == "" then
          .rpcError 400 (idOrNull id) (-32602) "tools/call requires params.name"
        else
          match runManagedMcpToolValidate currentYear name (rpcCallArgsOf payload) with
          | .ok endpointPath => .toolCallUpstream id endpointPath
          | .error msg => .rpcError 400 (idOrNull id) (-32000) msg
      else
        .rpcError 404 (idOrNull id) (-32601)
          ("Method not found: " ++ (if method == "" then "(empty)" else method))

/-! ## server/index.mjs — origin allow-list -/

/-- `normalizeOrigin(value)`; `urlOrigin` is the oracle for
`new URL(trimmed).origin` (`none` = the constructor throws). -/
def normalizeOrigin (urlOrigin : String → Option String)
    (value : Option String) : Option String :=
  match value with
  | none => none
  | some v => if strTrim v == "" then none else urlOrigin (strTrim v)

/-- `getAllowedOrigins(req)`: configured allow-list when non-empty, otherwise
both schemes of the request's own `Host` header (empty when no host). -/
def getAllowedOrigins (configured : List String) (host : Option String) :
    List String :=
  if !configured.isEmpty then configured
  else
    match host with
    | some h =>
      if strTrim h == "" then []
      else ["https://" ++ strTrim h, "http://" ++ strTrim h]
    | none => []

/-- `isApiOriginAllowed(req)`. -/
def isApiOriginAllowed (urlOrigin : String → Option String)
    (configured : List String) (originHeader host : Option String) : Bool :=
  match normalizeOrigin urlOrigin originHeader with
  | none => true
  | some origin =>
    let allowedOrigins := getAllowedOrigins configured host
    if allowedOrigins.isEmpty then false
    else allowedOrigins.contains origin

/-! ## server/index.mjs — fixed-window rate limiter -/

/-- One `RATE_LIMIT_STATE` entry: `{ startedAt, count }`. -/
structure RateEntry where
  startedAt : Int
  count : Nat
deriving Repr, DecidableEq

/-- `RATE_LIMIT_STATE.get(ip)` on an association-list model of the map. -/
def lookupRateEntry (state : List (String × RateEntry)) (ip : String) :
    Option RateEntry :=
  (state.find? (fun p => p.1 == ip)).map (fun p => p.2)

/-- `RATE_LIMIT_STATE.set(ip, e)`: replace the entry, or append a new one. -/
def setRateEntry (state : List (String × RateEntry)) (ip : String)
    (e : RateEntry) : List (String × RateEntry) :=
  match state with
  | [] => [(ip, e)]
  | (k, v) :: rest =>
    if k == ip then (k, e) :: rest else (k, v) :: setRateEntry rest ip e

/-- `isRateLimited(ip, nowMs)` from `server/index.mjs`: returns the boolean
result together with the updated map (the JS function mutates
`RATE_LIMIT_STATE` in place). -/
def isRateLimited (windowMs : Int) (maxRequests : Nat)
    (state : List (String × RateEntry)) (ip : String) (nowMs : Int) :
    Bool × List (String × RateEntry) :=
  match lookupRateEntry state ip with
  | none => (false, setRateEntry state ip ⟨nowMs, 1⟩)
  | some existing =>
    if nowMs - existing.startedAt ≥ windowMs then
      (false, setRateEntry state ip ⟨nowMs, 1⟩)
    else
      let bumped : RateEntry := ⟨existing.startedAt, existing.count + 1⟩
      (decide (bumped.count > maxRequests), setRateEntry state ip bumped)

/-- `cleanupRateLimitState(nowMs)`: purge entries older than two windows. -/
def cleanupRateLimitState (windowMs : Int)
    (state : List (String × RateEntry)) (nowMs : Int) :
    List (String × RateEntry) :=
  state.filter (fun p => !(decide (nowMs - p.2.startedAt > windowMs * 2)))

/-- Decision of the `/api/` front-door pipeline in the `http.createServer`
handler. -/
inductive GateOutcome where
  | forbidden403
  | rateLimited429
  | proceed
deriving Repr, DecidableEq

/-- The `/api/` prefix pipeline of the request handler in `server/index.mjs`:
`cleanupRateLimitState()`, then the origin check (403), then the rate check
(429); returns the decision and the rate-limiter map it leaves behind. -/
def handleApiGate (windowMs : Int) (maxRequests : Nat)
    (urlOrigin : String → Option String) (configured : List String)
    (originHeader host : Option String) (ip : String)
    (state : List (String × RateEntry)) (nowMs : Int) :
    GateOutcome × List (String × RateEntry) :=
  let cleaned := cleanupRateLimitState windowMs state nowMs
  if !(isApiOriginAllowed urlOrigin configured originHeader host) then
    (.forbidden403, cleaned)
  else
    let stepped := isRateLimited windowMs maxRequests cleaned ip nowMs
    if stepped.1 then (.rateLimited429, stepped.2) else (.proceed, stepped.2)

/-! ## Gateway client (`src/tools` MCP gateway) — recoverable-error predicate
and one-shot stale-catalog retry -/

/-- `hay.includes(pat)` on character lists. -/
def charListContains (pat : List Char) : List Char → Bool
  | [] => pat.isEmpty
  | c :: rest => pat.isPrefixOf (c :: rest) || charListContains pat rest

/-- JS `String.prototype.includes`. -/
def strContains (s pat : String) : Bool :=
  charListContains pat.data s.data

/-- `isRecoverableToolCallError(error)` from the gateway client: lexical match
of the lower-cased message against the fixed phrase list. -/
def isRecoverableToolCallError (message : String) : Bool :=
  let m := strLower message
  strContains m "tool not found"
    || strContains m "method not found"
    || strContains m "unknown tool"
    || strContains m "stale"
    || strContains m "no response"
    || strContains m "not available"

/-- Outcome of one awaited `callTool()` invocation: a successful JSON-RPC
result, or a thrown error carrying its message. -/
inductive CallOutcome (R : Type) where
  | ok (r : R)
  | err (message : String)
deriving Repr, DecidableEq

/-- Observable trace of the `tools/call` try/catch in the gateway client's
`tool` operation: how many times `callTool()` was awaited, how many catalog
refreshes (`ensureServerTools` with `refresh: true`) were awaited, the
recorded `retryApplied` flag (the source sets it *before* awaiting the
refresh, so it is reported even when the refresh throws), and the final
outcome. -/
structure ToolCallTrace (R : Type) where
  callsIssued : Nat
  refreshes : Nat
  retryApplied : Bool
  outcome : CallOutcome R
deriving Repr, DecidableEq

/-- The stale-catalog retry block of the `tool` operation (`try { callResult =
await callTool() } catch ...` in the gateway client), with the outcomes of
the first `callTool()`, of the catalog refresh (`ensureServerTools` with
`refresh: true` — three awaited JSON-RPC calls that can themselves throw),
and of the (potential) second `callTool()` as oracle inputs.  On a
recoverable first failure the source sets `retryApplied`, awaits the refresh
— a thrown refresh error propagates out of the catch with no second call —
and only after a successful refresh retries the call once. -/
def runToolCallWithRetry {R : Type} (first : CallOutcome R)
    (refresh : Except String Unit) (second : CallOutcome R) :
    ToolCallTrace R :=
  match first with
  | .ok r => ⟨1, 0, false, .ok r⟩
  | .err e =>
    if isRecoverableToolCallError e then
      match refresh with
      | .error refreshError => ⟨1, 1, true, .err refreshError⟩
      | .ok _ =>
        match second with
        | .ok r => ⟨2, 1, true, .ok r⟩
        | .err e2 => ⟨2, 1, true, .err e2⟩
    else ⟨1, 0, false, .err e⟩

/-! ## Gateway client — server-token and tool-name resolution -/

/-- The parts of `McpServerConfig` that resolution consults. -/
structure McpServerConfig where
  id : String
  name : String
  enabled : Bool
deriving Repr, DecidableEq

/-- `normalizeServerToken(value)`. -/
def normalizeServerToken (value : String) : String := strLower (strTrim value)

/-- `findServerByToken(servers, token)`: first server whose id or display name
matches the token case-insensitively. -/
def findServerByToken (servers : List McpServerConfig) (token : String) :
    Option McpServerConfig :=
  servers.find? (fun server =>
    normalizeServerToken server.id == normalizeServerToken token
      || normalizeServerToken server.name == normalizeServerToken token)

/-- `resolveSingleServer(token)` from the `tool` operation. -/
def resolveSingleServer (servers : List McpServerConfig) (token : String) :
    Except String McpServerConfig :=
  match findServerByToken servers token with
  | none => .error ("Unknown MCP server: " ++ token)
  | some server =>
    if !server.enabled then
      .error ("MCP server \"" ++ server.name ++ "\" is disabled.")
    else .ok server

/-- A tool descriptor restricted to the fields resolution consults. -/
structure ToolDescriptor where
  serverId : String
  serverName : String
  name : String
deriving Repr, DecidableEq

/-- JS `Array.from(new Set(xs))`: first occurrences, in order. -/
def dedupFirst (xs : List String) : List String :=
  xs.foldl (fun acc x => if acc.contains x then acc else acc ++ [x]) []

/-- Insertion into a `.sort()`-ordered list of strings. -/
def insertSorted (x : String) : List String → List String
  | [] => [x]
  | y :: rest => if decide (x ≤ y) then x :: y :: rest else y :: insertSorted x rest

/-- JS `Array.prototype.sort()` on strings (lexicographic). -/
def sortStrings (xs : List String) : List String :=
  xs.foldr insertSorted []

/-- The "tool not found" error of the `tool` operation. -/
def mcpToolNotFoundMessage (toolName : String) : String :=
  "MCP tool not found: " ++ toolName ++ ". "
    ++ "Use `search` first to discover available tools, then `describe` to inspect inputs."

/-- The ambiguity error of the `tool` operation. -/
def mcpAmbiguousToolMessage (toolName : String) (serverNames : List String) :
    String :=
  "MCP tool \"" ++ toolName ++ "\" is available on multiple servers ("
    ++ strJoin ", " serverNames ++ "). Specify the server parameter."

/-- Tool descriptors a server's catalog contributes
(`ensureServerTools(...).tools`, given by the `catalogOf` oracle which maps a
server id to the tool names its `tools/list` yielded). -/
def serverToolDescriptors (catalogOf : String → List String)
    (server : McpServerConfig) : List ToolDescriptor :=
  (catalogOf server.id).map (fun t => ⟨server.id, server.name, t⟩)

/-- The resolution phase of the `tool` operation in the gateway client: from
the configured servers, the per-server catalogs, the requested tool name, and
the optional `server` token, decide which server the `tools/call` goes to (or
fail with the exact error the code throws). -/
def toolExecResolve (servers : List McpServerConfig)
    (catalogOf : String → List String) (toolName : String)
    (serverTok : Option String) : Except String McpServerConfig :=
  match serverTok with
  | some tok =>
    match resolveSingleServer servers tok with
    | .error e => .error e
    | .ok server =>
      let matched := (serverToolDescriptors catalogOf server).filter
        (fun t => t.name == toolName)
      match matched with
      | [] => .error (mcpToolNotFoundMessage toolName)
      | t0 :: _ => resolveSingleServer servers t0.serverId
  | none =>
    let enabledServers := servers.filter (fun s => s.enabled)
    let allTools := enabledServers.flatMap (serverToolDescriptors catalogOf)
    let matched := allTools.filter (fun t => t.name == toolName)
    match matched with
    | [] => .error (mcpToolNotFoundMessage toolName)
    | t0 :: _ =>
      let matchedServerIds := dedupFirst (matched.map (fun t => t.serverId))
      if matchedServerIds.length > 1 then
        .error (mcpAmbiguousToolMessage toolName
          (sortStrings (dedupFirst (matched.map (fun t => t.serverName)))))
      else resolveSingleServer servers t0.serverId

/-! ## Helper lemmas -/

theorem lookup_setRateEntry_self (s : List (String × RateEntry)) (ip : String)
    (e : RateEntry) : lookupRateEntry (setRateEntry s ip e) ip = some e := by
  induction s with
  | nil => simp [setRateEntry, lookupRateEntry, List.find?]
  | cons p rest ih =>
    by_cases h : p.1 == ip
    · simp [setRateEntry, lookupRateEntry, List.find?, h]
    · simp only [setRateEntry]
      rw [show (p.1, p.2) = p from rfl]
      simp only [h, Bool.false_eq_true, if_false]
      simpa [lookupRateEntry, List.find?, h] using ih

theorem lookupRateEntry_cons_pos {p : String × RateEntry}
    {rest : List (String × RateEntry)} {ip : String}
    (hk : (p.1 == ip) = true) :
    lookupRateEntry (p :: rest) ip = some p.2 := by
  simp [lookupRateEntry, List.find?, hk]

theorem lookupRateEntry_cons_neg {p : String × RateEntry}
    {rest : List (String × RateEntry)} {ip : String}
    (hk : (p.1 == ip) = false) :
    lookupRateEntry (p :: rest) ip = lookupRateEntry rest ip := by
  simp [lookupRateEntry, List.find?, hk]

theorem lookup_cleanup_of_fresh (w : Int) (s : List (String × RateEntry))
    (now : Int) (ip : String) (e : RateEntry)
    (h : lookupRateEntry s ip = some e)
    (hfresh : ¬(now - e.startedAt > w * 2)) :
    lookupRateEntry (cleanupRateLimitState w s now) ip = some e := by
  induction s with
  | nil => simp [lookupRateEntry, List.find?] at h
  | cons p rest ih =>
    by_cases hk : (p.1 == ip) = true
    · have he : p.2 = e := by
        rw [lookupRateEntry_cons_pos hk] at h
        exact Option.some.inj h
      have hkeep : (!(decide (now - p.2.startedAt > w * 2))) = true := by
        rw [he]; simpa using hfresh
      rw [cleanupRateLimitState, List.filter_cons, if_pos hkeep]
      rw [lookupRateEntry_cons_pos hk, he]
    · have hk' : (p.1 == ip) = false := by simpa using hk
      have h' : lookupRateEntry rest ip = some e := by
        rw [lookupRateEntry_cons_neg hk'] at h
        exact h
      have ihr := ih h'
      rw [cleanupRateLimitState, List.filter_cons]
      rw [cleanupRateLimitState] at ihr
      by_cases hkeep : (!(decide (now - p.2.startedAt > w * 2))) = true
      · rw [if_pos hkeep, lookupRateEntry_cons_neg hk']
        exact ihr
      · rw [if_neg hkeep]
        exact ihr

theorem handleApiGate_ne_forbidden_of_allowed (w : Int) (maxRequests : Nat)
    (urlOrigin : String → Option String) (configured : List String)
    (originHeader host : Option String) (ip : String)
    (s : List (String × RateEntry)) (now : Int)
    (hallow : isApiOriginAllowed urlOrigin configured originHeader host = true) :
    (handleApiGate w maxRequests urlOrigin configured originHeader host
      ip s now).1 ≠ GateOutcome.forbidden403 := by
  rw [handleApiGate]
  simp only [hallow, Bool.not_true, Bool.false_eq_true, if_false]
  split <;> simp

theorem str_length_pos_of_ne_empty {s : String} (h : s ≠ "") : s.length > 0 := by
  cases s with
  | mk l =>
    cases l with
    | nil => simp_all [String.length]
    | cons c cs => simp [String.length]

theorem str_append_left_cancel {a b c : String} (h : a ++ b = a ++ c) : b = c := by
  have hd := congrArg String.data h
  simp only [String.data_append] at hd
  exact String.ext (List.append_cancel_left hd)

/-! ## Claims about the rate limiter and origin check -/

/-- C7: for the rate limiter with window `W` and maximum `N`, keyed by client
IP: (i) the first request from an IP in a window (no live entry) is accepted;
(ii) whenever `now - windowStartedAt ≥ W` the per-IP counter resets to a fresh
window of count 1 and the request is accepted; (iii) with `N = 1`, after a
first accepted request at `t1`, a second request from the same IP within the
same window is rejected with 429 by the `/api/` gate. -/
theorem C7_rate_limiter (w : Int) (maxRequests : Nat)
    (s : List (String × RateEntry)) (ip : String) (now t1 t2 : Int)
    (e : RateEntry) (urlOrigin : String → Option String)
    (configured : List String) (host : Option String) :
    (lookupRateEntry s ip = none →
      (isRateLimited w maxRequests s ip now).1 = false)
  ∧ (lookupRateEntry s ip = some e → now - e.startedAt ≥ w →
      isRateLimited w maxRequests s ip now
        = (false, setRateEntry s ip ⟨now, 1⟩))
  ∧ (0 ≤ w → lookupRateEntry s ip = none → 0 ≤ t2 - t1 → t2 - t1 < w →
      (handleApiGate w 1 urlOrigin configured none host ip
          (isRateLimited w 1 s ip t1).2 t2).1 = GateOutcome.rateLimited429) := by
  refine ⟨?_, ?_, ?_⟩
  · intro h
    simp [isRateLimited, h]
  · intro h hexp
    simp [isRateLimited, h, hexp]
  · intro hw h h21 hlt
    have hstep : (isRateLimited w 1 s ip t1).2 = setRateEntry s ip ⟨t1, 1⟩ := by
      simp [isRateLimited, h]
    rw [hstep]
    have hlook : lookupRateEntry (setRateEntry s ip ⟨t1, 1⟩) ip
        = some ⟨t1, 1⟩ := lookup_setRateEntry_self s ip _
    have hfresh : ¬(t2 - (⟨t1, 1⟩ : RateEntry).startedAt > w * 2) := by
      simp only [not_lt]
      have h2w : w ≤ w * 2 := by nlinarith
      calc t2 - t1 ≤ w := le_of_lt hlt
        _ ≤ w * 2 := h2w
    have hclean := lookup_cleanup_of_fresh w (setRateEntry s ip ⟨t1, 1⟩) t2 ip
      ⟨t1, 1⟩ hlook hfresh
    have horig : isApiOriginAllowed urlOrigin configured none host = true := by
      simp [isApiOriginAllowed, normalizeOrigin]
    have hnot : ¬(t2 - t1 ≥ w) := not_le.mpr hlt
    simp [handleApiGate, horig, isRateLimited, hclean, hnot]

/-- C8: for every inbound `/api/` request with an `Origin` header present that
resolves to an origin string, the gateway rejects with 403 exactly when that
origin is missing from the configured allow-list (or, with no allow-list
configured, when it differs from both `https://` and `http://` of the
request's own `Host`); a request with no `Origin` header is never rejected by
this stage. -/
theorem C8_origin_check (urlOrigin : String → Option String)
    (configured : List String) (originHeader host : Option String)
    (ip : String) (w : Int) (maxRequests : Nat)
    (s : List (String × RateEntry)) (now : Int) :
    (originHeader = none →
      isApiOriginAllowed urlOrigin configured originHeader host = true
        ∧ (handleApiGate w maxRequests urlOrigin configured originHeader host
            ip s now).1 ≠ GateOutcome.forbidden403)
  ∧ (∀ hdr o, originHeader = some hdr →
      normalizeOrigin urlOrigin (some hdr) = some o → configured ≠ [] →
      isApiOriginAllowed urlOrigin configured originHeader host
        = configured.contains o)
  ∧ (∀ hdr o h, originHeader = some hdr →
      normalizeOrigin urlOrigin (some hdr) = some o → configured = [] →
      host = some h → strTrim h ≠ "" →
      isApiOriginAllowed urlOrigin configured originHeader host
        = (["https://" ++ strTrim h, "http://" ++ strTrim h].contains o))
  ∧ (isApiOriginAllowed urlOrigin configured originHeader host = false →
      (handleApiGate w maxRequests urlOrigin configured originHeader host
        ip s now).1 = GateOutcome.forbidden403) := by
  refine ⟨?_, ?_, ?_, ?_⟩
  · intro h
    subst h
    have hallow : isApiOriginAllowed urlOrigin configured none host = true := by
      simp [isApiOriginAllowed, normalizeOrigin]
    exact ⟨hallow, handleApiGate_ne_forbidden_of_allowed _ _ _ _ _ _ _ _ _ hallow⟩
  · intro hdr o hh ho hc
    subst hh
    have hne : configured.isEmpty = false := by
      simpa [List.isEmpty_iff] using hc
    simp [isApiOriginAllowed, ho, getAllowedOrigins, hne]
  · intro hdr o h hh ho hc hhost htrim
    subst hh; subst hc; subst hhost
    have htrim' : (strTrim h == "") = false := by simpa using htrim
    simp [isApiOriginAllowed, ho, getAllowedOrigins, htrim']
  · intro h
    simp [handleApiGate, h]

/-- C10: an `/api/` request whose `Origin` header is present but does not
resolve to an origin string (the URL constructor throws, represented by the
`urlOrigin` oracle returning `none`) passes the origin stage like an absent
header, regardless of the configured allow-list: it is never rejected with
403 by the origin check. -/
theorem C10_unparsable_origin_passes (urlOrigin : String → Option String)
    (configured : List String) (hdr : String) (host : Option String)
    (ip : String) (w : Int) (maxRequests : Nat)
    (s : List (String × RateEntry)) (now : Int)
    (h : urlOrigin (strTrim hdr) = none) :
    isApiOriginAllowed urlOrigin configured (some hdr) host = true
  ∧ (handleApiGate w maxRequests urlOrigin configured (some hdr) host
      ip s now).1 ≠ GateOutcome.forbidden403 := by
  have hallow : isApiOriginAllowed urlOrigin configured (some hdr) host = true := by
    unfold isApiOriginAllowed normalizeOrigin
    by_cases hh : (strTrim hdr == "") = true <;> simp [hh, h]
  exact ⟨hallow, handleApiGate_ne_forbidden_of_allowed _ _ _ _ _ _ _ _ _ hallow⟩

/-! ## Claims about the OpenRouter passthrough proxy -/

/-- C1, counterexample to the claim as stated: the Authorization header
`" Bearer managed-openrouter-key"` (leading space) is non-empty and is not
exactly `"Bearer "` followed by the sentinel, so the claim requires a 400
response with no upstream request — but `hasUnmanagedClientCredentials`
compares the *trimmed* header, accepts it, and the gateway forwards the
request upstream. -/
theorem C1_counterexample :
    handleOpenRouterProxy "server-api-key"
      { method := "GET",
        authorization := HeaderVal.str " Bearer managed-openrouter-key",
        xApiKey := HeaderVal.absent,
        bodyOutcome := BodyOutcome.parsed (Json.obj []) }
      "/api/openrouter/v1/models" ""
    = ProxyResult.forward
        { method := "GET", path := "/models",
          authorization := "Bearer server-api-key", body := none } := by
  rfl

/-- C1 (amended): for every request to the LLM passthrough routes, a client
`Authorization` header whose **trimmed** value is non-empty and differs from
`"Bearer " + sentinel`, or an `x-api-key` header whose trimmed value is
non-empty and differs from the sentinel, yields a 400 response and no
upstream request; every forwarded upstream request carries the server's own
`OPENROUTER_API_KEY` as its bearer credential — independent of any
client-supplied header — and (as long as the server key is not the sentinel
itself) never the sentinel. -/
theorem C1_credential_gate (apiKey : String) (req : ProxyRequest)
    (pathname search : String) :
    (∀ a, req.authorization = HeaderVal.str a → strTrim a ≠ "" →
        strTrim a ≠ "Bearer " ++ MANAGED_OPENROUTER_API_KEY_SENTINEL →
        handleOpenRouterProxy apiKey req pathname search
          = ProxyResult.respond 400 unmanagedCredentialsMessage)
  ∧ (∀ k, req.xApiKey = HeaderVal.str k → strTrim k ≠ "" →
        strTrim k ≠ MANAGED_OPENROUTER_API_KEY_SENTINEL →
        handleOpenRouterProxy apiKey req pathname search
          = ProxyResult.respond 400 unmanagedCredentialsMessage)
  ∧ (∀ u, handleOpenRouterProxy apiKey req pathname search
        = ProxyResult.forward u →
        u.authorization = "Bearer " ++ apiKey
          ∧ hasUnmanagedClientCredentials req.authorization req.xApiKey = false)
  ∧ (apiKey ≠ MANAGED_OPENROUTER_API_KEY_SENTINEL →
      ∀ u, handleOpenRouterProxy apiKey req pathname search
        = ProxyResult.forward u →
        u.authorization ≠ "Bearer " ++ MANAGED_OPENROUTER_API_KEY_SENTINEL) := by
  have forwardFacts : ∀ u, handleOpenRouterProxy apiKey req pathname search
      = ProxyResult.forward u →
      u.authorization = "Bearer " ++ apiKey
        ∧ hasUnmanagedClientCredentials req.authorization req.xApiKey = false := by
    intro u hu
    rw [handleOpenRouterProxy] at hu
    by_cases hc : hasUnmanagedClientCredentials req.authorization req.xApiKey = true
    · simp [hc] at hu
    · have hcf : hasUnmanagedClientCredentials req.authorization req.xApiKey
          = false := by simpa using hc
      refine ⟨?_, hcf⟩
      simp only [hcf, Bool.false_eq_true, if_false] at hu
      split at hu
      · exact absurd hu (by simp)
      · split at hu
        · exact absurd hu (by simp)
        · split at hu
          · split at hu
            · exact absurd hu (by simp)
            · exact absurd hu (by simp)
            · split at hu
              · split at hu
                · exact absurd hu (by simp)
                · cases hu; rfl
              · cases hu; rfl
          · cases hu; rfl
  refine ⟨?_, ?_, forwardFacts, ?_⟩
  · intro a ha h1 h2
    have hb : hasUnmanagedClientCredentials req.authorization req.xApiKey
        = true := by
      rw [ha]
      unfold hasUnmanagedClientCredentials
      have hl : (0 < (strTrim a).length) := str_length_pos_of_ne_empty h1
      have hne : (strTrim a != "Bearer " ++ MANAGED_OPENROUTER_API_KEY_SENTINEL)
          = true := bne_iff_ne.mpr h2
      simp [hl, hne]
    rw [handleOpenRouterProxy]
    simp [hb]
  · intro k hk h1 h2
    have hb : hasUnmanagedClientCredentials req.authorization req.xApiKey
        = true := by
      rw [hk]
      unfold hasUnmanagedClientCredentials
      have hl : (0 < (strTrim k).length) := str_length_pos_of_ne_empty h1
      have hne : (strTrim k != MANAGED_OPENROUTER_API_KEY_SENTINEL) = true :=
        bne_iff_ne.mpr h2
      simp [hl, hne]
    rw [handleOpenRouterProxy]
    simp [hb]
  · intro hkey u hu habs
    have hauth := (forwardFacts u hu).1
    rw [hauth] at habs
    exact hkey (str_append_left_cancel habs)

/-- C1 witness: concrete instance of the amended credential gate. -/
theorem C1_credential_gate_witness :
    handleOpenRouterProxy "server-api-key"
      { method := "GET", authorization := HeaderVal.str "Bearer sk-client",
        xApiKey := HeaderVal.absent,
        bodyOutcome := BodyOutcome.parsed (Json.obj []) }
      "/api/openrouter/v1/models" ""
    = ProxyResult.respond 400 unmanagedCredentialsMessage :=
  (C1_credential_gate "server-api-key"
      { method := "GET", authorization := HeaderVal.str "Bearer sk-client",
        xApiKey := HeaderVal.absent,
        bodyOutcome := BodyOutcome.parsed (Json.obj []) }
      "/api/openrouter/v1/models" "").1
    "Bearer sk-client" rfl (by decide) (by decide)

/-- C2: for every POST to the passthrough chat-completions or responses route
that reaches the model gate (credential check passed, body read and parsed),
a body whose `model` field is not a curated model id yields a 400 response
listing the allowed models, with zero upstream requests, while a curated
model is forwarded upstream; moreover, *any* request forwarded upstream on
those two routes carries a body whose `model` field is curated. -/
theorem C2_model_allowlist (apiKey : String) (req : ProxyRequest)
    (pathname search : String) (j : Json) :
    (req.method = "POST" →
     (openRouterRelativePath pathname search = "/chat/completions"
       ∨ openRouterRelativePath pathname search = "/responses") →
     hasUnmanagedClientCredentials req.authorization req.xApiKey = false →
     req.bodyOutcome = BodyOutcome.parsed j →
     (isOpenRouterCuratedModelId (j.strFieldOr "model" "") = false →
        handleOpenRouterProxy apiKey req pathname search
          = ProxyResult.respond 400 modelNotAllowedMessage)
     ∧ (isOpenRouterCuratedModelId (j.strFieldOr "model" "") = true →
        handleOpenRouterProxy apiKey req pathname search
          = ProxyResult.forward
              { method := "POST", path := normalizeOpenRouterPath pathname search,
                authorization := "Bearer " ++ apiKey, body := some j }))
  ∧ (∀ u, handleOpenRouterProxy apiKey req pathname search
        = ProxyResult.forward u →
      (openRouterRelativePath pathname search = "/chat/completions"
        ∨ openRouterRelativePath pathname search = "/responses") →
      ∃ jj, u.body = some jj
        ∧ isOpenRouterCuratedModelId (jj.strFieldOr "model" "") = true) := by
  constructor
  · intro hm hroute hcred hbody
    constructor
    · intro hmodel
      rw [handleOpenRouterProxy]
      rcases hroute with hr | hr <;>
        simp [hcred, hr, openRouterRouteRules, hm, hbody, hmodel]
    · intro hmodel
      rw [handleOpenRouterProxy]
      rcases hroute with hr | hr <;>
        simp [hcred, hr, openRouterRouteRules, hm, hbody, hmodel]
  · intro u hu hroute
    rw [handleOpenRouterProxy] at hu
    by_cases hc : hasUnmanagedClientCredentials req.authorization req.xApiKey
        = true
    · simp [hc] at hu
    · have hcf : hasUnmanagedClientCredentials req.authorization req.xApiKey
          = false := by simpa using hc
      simp only [hcf, Bool.false_eq_true, if_false] at hu
      rcases hroute with hr | hr <;>
        · rw [hr] at hu
          by_cases hmeth : req.method = "POST"
          · rw [hmeth] at hu
            rcases hb : req.bodyOutcome with _ | _ | p <;> rw [hb] at hu
            · simp +decide [openRouterRouteRules] at hu
            · simp +decide [openRouterRouteRules] at hu
            · by_cases hcur :
                  isOpenRouterCuratedModelId (p.strFieldOr "model" "") = true
              · simp +decide [openRouterRouteRules, hcur] at hu
                exact ⟨p, by rw [← hu], hcur⟩
              · have hcur' :
                    isOpenRouterCuratedModelId (p.strFieldOr "model" "")
                      = false := by simpa using hcur
                simp +decide [openRouterRouteRules, hcur'] at hu
          · simp +decide [openRouterRouteRules, hmeth] at hu

/-- C2 witness: a POST with `model: "not-curated/x"` on the chat-completions
route is rejected with the allow-list message and no upstream request. -/
theorem C2_model_allowlist_witness :
    handleOpenRouterProxy "server-api-key"
      { method := "POST", authorization := HeaderVal.absent,
        xApiKey := HeaderVal.absent,
        bodyOutcome := BodyOutcome.parsed
          (Json.obj [("model", Json.str "not-curated/x")]) }
      "/api/openrouter/v1/chat/completions" ""
    = ProxyResult.respond 400 modelNotAllowedMessage :=
  ((C2_model_allowlist "server-api-key"
      { method := "POST", authorization := HeaderVal.absent,
        xApiKey := HeaderVal.absent,
        bodyOutcome := BodyOutcome.parsed
          (Json.obj [("model", Json.str "not-curated/x")]) }
      "/api/openrouter/v1/chat/completions" ""
      (Json.obj [("model", Json.str "not-curated/x")])).1
    rfl (Or.inl rfl) rfl rfl).1 rfl

/-! ## Claims about the managed MCP JSON-RPC endpoint -/

/-- C5, counterexample to the claim as stated: the claim says `tools/call`
requires both `params.name` and `params.arguments` and yields `-32602` when
they are malformed, but a `tools/call` with `params.name` present and
`params.arguments` entirely absent is *not* rejected with `-32602`: it
proceeds all the way to the upstream fetch (`/company` with the default
limit). Only a missing `params.name` triggers `-32602`. -/
theorem C5_counterexample :
    handleManagedMcpRpc 2025 "POST"
      (BodyOutcome.parsed (Json.obj
        [("jsonrpc", Json.str "2.0"), ("id", Json.num 1),
         ("method", Json.str "tools/call"),
         ("params", Json.obj [("name", Json.str "jm_list_companies")])]))
    = McpResponse.toolCallUpstream (some (Json.num 1)) "/company" := by
  rfl

/-- C5 (amended): on the managed JSON-RPC endpoint, an inbound body that
fails JSON parsing yields code `-32700`; an unknown method yields code
`-32601`; and a `tools/call` whose `params.name` is missing (or not a string,
or empty) yields code `-32602` — `params.arguments` is *not* required and
defaults to an empty object. -/
theorem C5_rpc_error_codes (currentYear : Int) (payload : Json) :
    (handleManagedMcpRpc currentYear "POST" BodyOutcome.parseError
      = McpResponse.rpcError 400 Json.null (-32700) "Invalid JSON body.")
  ∧ (rpcMethodOf payload ≠ "initialize" →
     rpcMethodOf payload ≠ "notifications/initialized" →
     rpcMethodOf payload ≠ "tools/list" →
     rpcMethodOf payload ≠ "tools/call" →
     handleManagedMcpRpc currentYear "POST" (BodyOutcome.parsed payload)
      = McpResponse.rpcError 404 (idOrNull (rpcIdOf payload)) (-32601)
          ("Method not found: "
            ++ (if rpcMethodOf payload == "" then "(empty)"
                else rpcMethodOf payload)))
  ∧ (rpcMethodOf payload = "tools/call" → rpcCallNameOf payload = "" →
     handleManagedMcpRpc currentYear "POST" (BodyOutcome.parsed payload)
      = McpResponse.rpcError 400 (idOrNull (rpcIdOf payload)) (-32602)
          "tools/call requires params.name") := by
  refine ⟨rfl, ?_, ?_⟩
  · intro h1 h2 h3 h4
    rw [handleManagedMcpRpc]
    simp +decide [beq_iff_eq, h1, h2, h3, h4]
  · intro hm hn
    rw [handleManagedMcpRpc]
    simp +decide [beq_iff_eq, hm, hn]

/-- C5 witness: concrete instances of the three amended error codes. -/
theorem C5_rpc_error_codes_witness :
    (handleManagedMcpRpc 2025 "POST" BodyOutcome.parseError
      = McpResponse.rpcError 400 Json.null (-32700) "Invalid JSON body.")
  ∧ (handleManagedMcpRpc 2025 "POST"
      (BodyOutcome.parsed (Json.obj
        [("id", Json.num 3), ("method", Json.str "bogus/method")]))
      = McpResponse.rpcError 404 (Json.num 3) (-32601)
          "Method not found: bogus/method")
  ∧ (handleManagedMcpRpc 2025 "POST"
      (BodyOutcome.parsed (Json.obj
        [("id", Json.num 4), ("method", Json.str "tools/call"),
         ("params", Json.obj [("arguments", Json.obj [])])]))
      = McpResponse.rpcError 400 (Json.num 4) (-32602)
          "tools/call requires params.name") := by
  refine ⟨(C5_rpc_error_codes 2025 Json.null).1, ?_, ?_⟩
  · have h := (C5_rpc_error_codes 2025
      (Json.obj [("id", Json.num 3), ("method", Json.str "bogus/method")])).2.1
      (by decide) (by decide) (by decide) (by decide)
    exact h
  · have h := (C5_rpc_error_codes 2025
      (Json.obj [("id", Json.num 4), ("method", Json.str "tools/call"),
        ("params", Json.obj [("arguments", Json.obj [])])])).2.2
      (by decide) (by decide)
    exact h

/-- C6, counterexample to the claim as stated: the claim says each managed
tool rejects arguments containing unknown fields, but a `tools/call` of
`jm_list_companies` whose arguments carry the unknown field
`unexpected_field` is accepted and proceeds to the upstream fetch — the
`additionalProperties: false` of the advertised schema is not enforced by
`runManagedMcpTool`, which simply ignores unknown fields. -/
theorem C6_counterexample :
    handleManagedMcpRpc 2025 "POST"
      (BodyOutcome.parsed (Json.obj
        [("id", Json.num 7), ("method", Json.str "tools/call"),
         ("params", Json.obj
           [("name", Json.str "jm_list_companies"),
            ("arguments", Json.obj [("unexpected_field", Json.num 1)])])]))
    = McpResponse.toolCallUpstream (some (Json.num 7)) "/company" := by
  rfl

/-- C6 (amended): the managed tools validate their known fields but ignore
unknown fields (strict rejection of unknown fields is only declared in the
advertised `inputSchema`, not enforced); an invalid enumeration value — e.g.
any `frequency` that is not case-insensitively `Annual`/`Quarterly`, such as
`"Monthly"` — fails before any upstream fetch, and the endpoint surfaces it
as a `-32000` JSON-RPC error whose message names the allowed values
(`"frequency must be Annual or Quarterly."`). -/
theorem C6_frequency_validation (currentYear : Int) (payload : Json)
    (fields : List (String × Json)) (sym f : String) :
    (∀ fs : List (String × Json), (Json.obj fs).getField "limit" = none →
      runManagedMcpToolValidate currentYear "jm_list_companies" (Json.obj fs)
        = Except.ok "/company")
  ∧ (normalizeSymbol ((Json.obj fields).getField "symbol") = Except.ok sym →
     (Json.obj fields).getField "frequency" = some (Json.str f) →
     strLower (strTrim f) ≠ "annual" → strLower (strTrim f) ≠ "quarterly" →
     runManagedMcpToolValidate currentYear "jm_get_statement" (Json.obj fields)
        = Except.error "frequency must be Annual or Quarterly.")
  ∧ (rpcMethodOf payload = "tools/call" →
     rpcCallNameOf payload = "jm_get_statement" →
     rpcCallArgsOf payload = Json.obj fields →
     normalizeSymbol ((Json.obj fields).getField "symbol") = Except.ok sym →
     (Json.obj fields).getField "frequency" = some (Json.str f) →
     strLower (strTrim f) ≠ "annual" → strLower (strTrim f) ≠ "quarterly" →
     handleManagedMcpRpc currentYear "POST" (BodyOutcome.parsed payload)
        = McpResponse.rpcError 400 (idOrNull (rpcIdOf payload)) (-32000)
            "frequency must be Annual or Quarterly.") := by
  have freqCase : ∀ fs : List (String × Json),
      normalizeSymbol ((Json.obj fs).getField "symbol") = Except.ok sym →
      (Json.obj fs).getField "frequency" = some (Json.str f) →
      strLower (strTrim f) ≠ "annual" → strLower (strTrim f) ≠ "quarterly" →
      runManagedMcpToolValidate currentYear "jm_get_statement" (Json.obj fs)
        = Except.error "frequency must be Annual or Quarterly." := by
    intro fs hsym hf hf1 hf2
    rw [runManagedMcpToolValidate]
    simp +decide [hsym, hf, normalizeFrequency, beq_iff_eq, hf1, hf2]
  refine ⟨?_, freqCase fields, ?_⟩
  · intro fs h
    rw [runManagedMcpToolValidate]
    simp +decide [h]
  · intro hm hn hargs hsym hf hf1 hf2
    have hv := freqCase fields hsym hf hf1 hf2
    rw [handleManagedMcpRpc]
    simp +decide [beq_iff_eq, hm, hn, hargs, hv]

/-- C6 witness: `frequency: "Monthly"` on `jm_get_statement` produces the
`-32000` error naming the allowed values, before any upstream fetch; and
unknown fields on `jm_list_companies` are ignored. -/
theorem C6_frequency_validation_witness :
    (runManagedMcpToolValidate 2025 "jm_list_companies"
        (Json.obj [("unexpected_field", Json.num 1)]) = Except.ok "/company")
  ∧ (handleManagedMcpRpc 2025 "POST"
      (BodyOutcome.parsed (Json.obj
        [("id", Json.num 5), ("method", Json.str "tools/call"),
         ("params", Json.obj
           [("name", Json.str "jm_get_statement"),
            ("arguments", Json.obj
              [("symbol", Json.str "GK"), ("frequency", Json.str "Monthly"),
               ("statement_type", Json.str "IS")])])]))
      = McpResponse.rpcError 400 (Json.num 5) (-32000)
          "frequency must be Annual or Quarterly.") := by
  constructor
  · exact (C6_frequency_validation 2025 Json.null [] "" "").1
      [("unexpected_field", Json.num 1)] rfl
  · exact (C6_frequency_validation 2025
      (Json.obj
        [("id", Json.num 5), ("method", Json.str "tools/call"),
         ("params", Json.obj
           [("name", Json.str "jm_get_statement"),
            ("arguments", Json.obj
              [("symbol", Json.str "GK"), ("frequency", Json.str "Monthly"),
               ("statement_type", Json.str "IS")])])])
      [("symbol", Json.str "GK"), ("frequency", Json.str "Monthly"),
       ("statement_type", Json.str "IS")] "GK" "Monthly").2.2
      rfl rfl rfl rfl rfl (by decide) (by decide)

/-- C9, counterexample to the claim as stated: the claim says JSON-RPC
requests without an `id` are notifications and never receive a response
body, but an `initialize` request sent without an `id` still receives an
HTTP 200 response with a JSON-RPC result body — only
`notifications/initialized` gets the 204 empty-body treatment. -/
theorem C9_counterexample :
    handleManagedMcpRpc 2025 "POST"
      (BodyOutcome.parsed (Json.obj
        [("jsonrpc", Json.str "2.0"), ("method", Json.str "initialize")]))
    = McpResponse.rpcSuccess 200 none McpRpcResult.initializeInfo := by
  rfl

/-- C9 (amended): on the managed endpoint, `notifications/initialized` with
no `id` (or a null `id`) is acknowledged with HTTP 204, an empty body, and no
`id` echo; with a non-null `id` it instead receives a 200 success response
echoing the `id`. Other methods sent without an `id` still receive normal
response bodies. -/
theorem C9_notification_ack (currentYear : Int) (payload : Json) :
    (rpcMethodOf payload = "notifications/initialized" →
     isNullishId (rpcIdOf payload) = true →
     handleManagedMcpRpc currentYear "POST" (BodyOutcome.parsed payload)
        = McpResponse.emptyNoBody)
  ∧ (rpcMethodOf payload = "notifications/initialized" →
     isNullishId (rpcIdOf payload) = false →
     handleManagedMcpRpc currentYear "POST" (BodyOutcome.parsed payload)
        = McpResponse.rpcSuccess 200 (rpcIdOf payload)
            McpRpcResult.initializedAck)
  ∧ (rpcMethodOf payload = "initialize" →
     handleManagedMcpRpc currentYear "POST" (BodyOutcome.parsed payload)
        = McpResponse.rpcSuccess 200 (rpcIdOf payload)
            McpRpcResult.initializeInfo) := by
  refine ⟨?_, ?_, ?_⟩
  · intro hm hid
    rw [handleManagedMcpRpc]
    simp +decide [beq_iff_eq, hm, hid]
  · intro hm hid
    rw [handleManagedMcpRpc]
    simp +decide [beq_iff_eq, hm, hid]
  · intro hm
    rw [handleManagedMcpRpc]
    simp +decide [beq_iff_eq, hm]

/-- C9 witness: `notifications/initialized` without an `id` is acknowledged
with the empty 204 response. -/
theorem C9_notification_ack_witness :
    handleManagedMcpRpc 2025 "POST"
      (BodyOutcome.parsed (Json.obj
        [("jsonrpc", Json.str "2.0"),
         ("method", Json.str "notifications/initialized")]))
    = McpResponse.emptyNoBody :=
  (C9_notification_ack 2025
    (Json.obj [("jsonrpc", Json.str "2.0"),
      ("method", Json.str "notifications/initialized")])).1 rfl rfl

/-! ## Claims about the gateway client -/

/-- C3, counterexample to the claim as stated: the claim says a recoverable
first failure is always followed by exactly one refresh and exactly one
retried call, but the catalog refresh between the failure and the retry is
`ensureServerTools` — three awaited JSON-RPC calls that can themselves throw
(network failure, RPC error, `"MCP tools/list returned no response."`).
When the refresh throws, its error propagates out of the catch and *no*
second `tools/call` is issued: here a recoverable `"MCP tool not found"`
failure ends after one call with the refresh error, not after a retry. -/
theorem C3_counterexample :
    runToolCallWithRetry (R := Nat)
        (CallOutcome.err "MCP tool not found: list_prices")
        (Except.error "MCP tools/list returned no response.")
        (CallOutcome.ok 5)
      = ⟨1, 1, true,
          CallOutcome.err "MCP tools/list returned no response."⟩ := by
  rfl

/-- C3 (amended): for the gateway client's `tool` operation, if the first
`tools/call` fails with a recoverable error (its message lexically contains
one of the fixed phrases: tool/method not found, unknown tool, stale, no
response, not available — the `isRecoverableToolCallError` predicate from
the source), the client records the retry flag and awaits exactly one
catalog refresh for that server: if the refresh succeeds the call is retried
exactly once and the second outcome (success or failure) propagates
unchanged, while if the refresh itself fails its error propagates and no
second call is issued; a non-recoverable first failure propagates unchanged
with no refresh; the underlying `tools/call` is never issued more than twice
per operation. -/
theorem C3_stale_retry {R : Type} (first : CallOutcome R)
    (refresh : Except String Unit) (second : CallOutcome R)
    (e refreshError : String) :
    ((runToolCallWithRetry first refresh second).callsIssued ≤ 2
      ∧ (runToolCallWithRetry first refresh second).refreshes ≤ 1)
  ∧ (∀ r, first = CallOutcome.ok r →
      runToolCallWithRetry first refresh second
        = ⟨1, 0, false, CallOutcome.ok r⟩)
  ∧ (first = CallOutcome.err e → isRecoverableToolCallError e = true →
      refresh = Except.ok () →
      runToolCallWithRetry first refresh second = ⟨2, 1, true, second⟩)
  ∧ (first = CallOutcome.err e → isRecoverableToolCallError e = true →
      refresh = Except.error refreshError →
      runToolCallWithRetry first refresh second
        = ⟨1, 1, true, CallOutcome.err refreshError⟩)
  ∧ (first = CallOutcome.err e → isRecoverableToolCallError e = false →
      runToolCallWithRetry first refresh second
        = ⟨1, 0, false, CallOutcome.err e⟩) := by
  refine ⟨?_, ?_, ?_, ?_, ?_⟩
  · cases first with
    | ok r => simp [runToolCallWithRetry]
    | err m =>
      by_cases hm : isRecoverableToolCallError m = true
      · cases refresh with
        | error re => simp [runToolCallWithRetry, hm]
        | ok u => cases second <;> simp [runToolCallWithRetry, hm]
      · have hm' : isRecoverableToolCallError m = false := by simpa using hm
        simp [runToolCallWithRetry, hm']
  · intro r h
    subst h
    rfl
  · intro h hrec hrefresh
    subst h
    subst hrefresh
    cases second <;> simp [runToolCallWithRetry, hrec]
  · intro h hrec hrefresh
    subst h
    subst hrefresh
    simp [runToolCallWithRetry, hrec]
  · intro h hrec
    subst h
    simp [runToolCallWithRetry, hrec]

/-- C3 witness: after a "tool not found" failure, a successful refresh is
followed by exactly one retried call whose identical failure propagates
unchanged; a failing refresh propagates its own error after a single call;
a non-recoverable failure propagates with no refresh and no retry. -/
theorem C3_stale_retry_witness :
    runToolCallWithRetry (R := Nat)
        (CallOutcome.err "MCP tool not found: list_prices")
        (Except.ok ())
        (CallOutcome.err "MCP tool not found: list_prices")
      = ⟨2, 1, true, CallOutcome.err "MCP tool not found: list_prices"⟩
  ∧ runToolCallWithRetry (R := Nat)
        (CallOutcome.err "MCP tool not found: list_prices")
        (Except.error "MCP tools/list returned no response.")
        (CallOutcome.ok 5)
      = ⟨1, 1, true,
          CallOutcome.err "MCP tools/list returned no response."⟩
  ∧ runToolCallWithRetry (R := Nat)
        (CallOutcome.err "upstream exploded") (Except.ok ())
        (CallOutcome.ok 5)
      = ⟨1, 0, false, CallOutcome.err "upstream exploded"⟩ := by
  refine ⟨?_, ?_, ?_⟩
  · exact (C3_stale_retry _ _ _ "MCP tool not found: list_prices" "").2.2.1
      rfl (by decide) rfl
  · exact (C3_stale_retry _ _ _ "MCP tool not found: list_prices"
      "MCP tools/list returned no response.").2.2.2.1 rfl (by decide) rfl
  · exact (C3_stale_retry _ _ _ "upstream exploded" "").2.2.2.2
      rfl (by decide)

/-! ### List helpers for the resolution proofs -/

theorem mem_foldl_dedup (xs : List String) (acc : List String) (y : String) :
    y ∈ xs.foldl
        (fun acc x => if acc.contains x then acc else acc ++ [x]) acc
      ↔ y ∈ acc ∨ y ∈ xs := by
  induction xs generalizing acc with
  | nil => simp
  | cons x rest ih =>
    simp only [List.foldl_cons]
    by_cases hx : acc.contains x = true
    · rw [if_pos hx, ih]
      have hmem : x ∈ acc := List.elem_iff.mp hx
      constructor
      · rintro (h | h)
        · exact Or.inl h
        · exact Or.inr (List.mem_cons_of_mem _ h)
      · rintro (h | h)
        · exact Or.inl h
        · rcases List.mem_cons.mp h with h | h
          · exact Or.inl (h ▸ hmem)
          · exact Or.inr h
    · rw [if_neg hx, ih]
      simp only [List.mem_append, List.mem_singleton, List.mem_cons]
      tauto

theorem mem_dedupFirst (y : String) (xs : List String) :
    y ∈ dedupFirst xs ↔ y ∈ xs := by
  have h := mem_foldl_dedup xs [] y
  simpa [dedupFirst] using h

theorem mem_insertSorted (x y : String) (l : List String) :
    y ∈ insertSorted x l ↔ y = x ∨ y ∈ l := by
  induction l with
  | nil => simp [insertSorted]
  | cons z rest ih =>
    rw [insertSorted]
    by_cases h : decide (x ≤ z) = true
    · simp only [h, if_true, List.mem_cons]
    · simp only [h, Bool.false_eq_true, if_false, List.mem_cons, ih]
      tauto

theorem mem_sortStrings (y : String) (xs : List String) :
    y ∈ sortStrings xs ↔ y ∈ xs := by
  induction xs with
  | nil => simp [sortStrings]
  | cons x rest ih =>
    have hx : sortStrings (x :: rest) = insertSorted x (sortStrings rest) :=
      rfl
    rw [hx, mem_insertSorted, ih, List.mem_cons]

theorem one_lt_length_of_two_mem {l : List String} {a b : String}
    (ha : a ∈ l) (hb : b ∈ l) (hne : a ≠ b) : 1 < l.length := by
  match l with
  | [] => cases ha
  | [x] =>
    rw [List.mem_singleton] at ha hb
    exact absurd (ha.trans hb.symm) hne
  | x :: y :: rest =>
    simp only [List.length_cons]
    omega

theorem foldl_dedup_no_new (xs : List String) (acc : List String)
    (h : ∀ x ∈ xs, acc.contains x = true) :
    xs.foldl (fun acc x => if acc.contains x then acc else acc ++ [x]) acc
      = acc := by
  induction xs generalizing acc with
  | nil => rfl
  | cons x rest ih =>
    simp only [List.foldl_cons, h x (List.mem_cons_self x rest), if_true]
    exact ih acc (fun z hz => h z (List.mem_cons_of_mem _ hz))

theorem dedupFirst_all_eq {l : List String} {a : String}
    (hne : l ≠ []) (h : ∀ x ∈ l, x = a) : dedupFirst l = [a] := by
  match l with
  | [] => exact absurd rfl hne
  | x :: rest =>
    have hx : x = a := h x (List.mem_cons_self x rest)
    rw [dedupFirst]
    simp only [List.foldl_cons]
    rw [show (([] : List String).contains x) = false from rfl]
    simp only [Bool.false_eq_true, if_false, List.nil_append]
    rw [hx]
    exact foldl_dedup_no_new rest [a] (fun z hz => by
      rw [h z (List.mem_cons_of_mem _ hz)]
      simp)

/-- Well-formedness of a server registry for token resolution: any server
that a given server's id resolves to (by the case-insensitive id or
display-name match of `findServerByToken`) is that server itself. This holds
whenever normalized ids are distinct and no display name collides with
another server's id. -/
def UnambiguousServerIds (servers : List McpServerConfig) : Prop :=
  ∀ s ∈ servers, ∀ s' ∈ servers,
    (normalizeServerToken s'.id = normalizeServerToken s.id
      ∨ normalizeServerToken s'.name = normalizeServerToken s.id) → s' = s

theorem findServerByToken_self (servers : List McpServerConfig)
    (s : McpServerConfig) (hU : UnambiguousServerIds servers)
    (hs : s ∈ servers) : findServerByToken servers s.id = some s := by
  induction servers with
  | nil => cases hs
  | cons t rest ih =>
    by_cases hp : (normalizeServerToken t.id == normalizeServerToken s.id
        || normalizeServerToken t.name == normalizeServerToken s.id) = true
    · have ht : t = s := by
        refine hU s hs t (List.mem_cons_self t rest) ?_
        rcases Bool.or_eq_true_iff.mp hp with h | h
        · exact Or.inl (beq_iff_eq.mp h)
        · exact Or.inr (beq_iff_eq.mp h)
      rw [findServerByToken, List.find?_cons_of_pos
        (p := fun server =>
          normalizeServerToken server.id == normalizeServerToken s.id
            || normalizeServerToken server.name == normalizeServerToken s.id)
        rest hp, ht]
    · have hs' : s ∈ rest := by
        rcases List.mem_cons.mp hs with h1 | h2
        · exfalso
          apply hp
          rw [← h1]
          simp
        · exact h2
      have hU' : UnambiguousServerIds rest := by
        intro a ha b hb hcond
        exact hU a (List.mem_cons_of_mem _ ha) b (List.mem_cons_of_mem _ hb)
          hcond
      have hrec := ih (by
        intro a ha b hb hcond
        exact hU a (List.mem_cons_of_mem _ ha) b (List.mem_cons_of_mem _ hb)
          hcond) hs'
      rw [findServerByToken, List.find?_cons_of_neg
        (p := fun server =>
          normalizeServerToken server.id == normalizeServerToken s.id
            || normalizeServerToken server.name == normalizeServerToken s.id)
        rest hp]
      exact hrec

theorem resolveSingleServer_self (servers : List McpServerConfig)
    (s : McpServerConfig) (hU : UnambiguousServerIds servers)
    (hs : s ∈ servers) (he : s.enabled = true) :
    resolveSingleServer servers s.id = Except.ok s := by
  rw [resolveSingleServer, findServerByToken_self servers s hU hs]
  simp [he]

theorem resolveSingleServer_ok_mem {servers : List McpServerConfig}
    {tok : String} {s : McpServerConfig}
    (h : resolveSingleServer servers tok = Except.ok s) :
    s ∈ servers ∧ s.enabled = true := by
  rw [resolveSingleServer] at h
  cases hf : findServerByToken servers tok with
  | none => rw [hf] at h; cases h
  | some sv =>
    rw [hf] at h
    by_cases hen : sv.enabled = true
    · simp only [hen, Bool.not_true, Bool.false_eq_true, if_false] at h
      cases h
      exact ⟨List.mem_of_find?_eq_some hf, hen⟩
    · have hf' : sv.enabled = false := by simpa using hen
      simp [hf'] at h


/-- C4: resolution of the gateway client's `tool` operation.  With no
`serverToken`: zero matches across all enabled servers' catalogs fails with
the error naming the tool and suggesting `search`/`describe` first; matches
on more than one distinct server fail with the ambiguity error listing the
candidate server names (each matched server's display name appears in the
list); matches on exactly one server proceed, resolving to that server.
With a `serverToken`: only that server's catalog is consulted (the outcome
depends only on that server's catalog) and a successful call resolves
deterministically to that server.  The single-server and token cases assume
the registry resolves each server's id to that server
(`UnambiguousServerIds`), the invariant of the configuration store. -/
theorem C4_tool_resolution (servers : List McpServerConfig)
    (catalogOf : String → List String) (toolName : String) :
    ((∀ s ∈ servers, s.enabled = true → toolName ∉ catalogOf s.id) →
      toolExecResolve servers catalogOf toolName none
        = Except.error (mcpToolNotFoundMessage toolName))
  ∧ (∀ s1 s2, s1 ∈ servers → s2 ∈ servers → s1.enabled = true →
      s2.enabled = true → toolName ∈ catalogOf s1.id →
      toolName ∈ catalogOf s2.id → s1.id ≠ s2.id →
      ∃ names : List String,
        toolExecResolve servers catalogOf toolName none
          = Except.error (mcpAmbiguousToolMessage toolName names)
        ∧ s1.name ∈ names ∧ s2.name ∈ names)
  ∧ (∀ s, UnambiguousServerIds servers → s ∈ servers → s.enabled = true →
      toolName ∈ catalogOf s.id →
      (∀ s' ∈ servers, s'.enabled = true → toolName ∈ catalogOf s'.id →
        s'.id = s.id) →
      toolExecResolve servers catalogOf toolName none = Except.ok s)
  ∧ (∀ tok s, UnambiguousServerIds servers →
      resolveSingleServer servers tok = Except.ok s →
      (toolName ∈ catalogOf s.id →
        toolExecResolve servers catalogOf toolName (some tok) = Except.ok s)
      ∧ (toolName ∉ catalogOf s.id →
        toolExecResolve servers catalogOf toolName (some tok)
          = Except.error (mcpToolNotFoundMessage toolName))
      ∧ (∀ catalogOf2 : String → List String,
          catalogOf2 s.id = catalogOf s.id →
          toolExecResolve servers catalogOf2 toolName (some tok)
            = toolExecResolve servers catalogOf toolName (some tok))) := by
  have memMatched : ∀ s ∈ servers, s.enabled = true → toolName ∈ catalogOf s.id →
      (⟨s.id, s.name, toolName⟩ : ToolDescriptor) ∈
        (((servers.filter (fun s => s.enabled)).flatMap
          (serverToolDescriptors catalogOf)).filter
            (fun t => t.name == toolName)) := by
    intro s hs he ht
    rw [List.mem_filter]
    refine ⟨?_, by simp⟩
    rw [List.mem_flatMap]
    refine ⟨s, ?_, ?_⟩
    · rw [List.mem_filter]
      exact ⟨hs, he⟩
    · rw [serverToolDescriptors, List.mem_map]
      exact ⟨toolName, ht, rfl⟩
  refine ⟨?_, ?_, ?_, ?_⟩
  · -- zero matches
    intro h
    rw [toolExecResolve]
    have hmm : (((servers.filter (fun s => s.enabled)).flatMap
        (serverToolDescriptors catalogOf)).filter
          (fun t => t.name == toolName)) = [] := by
      rw [List.filter_eq_nil_iff]
      intro t ht
      rw [List.mem_flatMap] at ht
      rcases ht with ⟨sv, hsv, htool⟩
      rw [List.mem_filter] at hsv
      rw [serverToolDescriptors, List.mem_map] at htool
      rcases htool with ⟨nm, hnm, rfl⟩
      intro hname
      have hn : nm = toolName := by simpa [beq_iff_eq] using hname
      exact h sv hsv.1 hsv.2 (hn ▸ hnm)
    rw [hmm]
  · -- ambiguity
    intro s1 s2 hs1 hs2 he1 he2 ht1 ht2 hne
    have hd1 := memMatched s1 hs1 he1 ht1
    have hd2 := memMatched s2 hs2 he2 ht2
    rcases hmm : (((servers.filter (fun s => s.enabled)).flatMap
        (serverToolDescriptors catalogOf)).filter
          (fun t => t.name == toolName)) with _ | ⟨t0, rest⟩
    · rw [hmm] at hd1
      exact absurd hd1 (List.not_mem_nil _)
    · have hd1' : (⟨s1.id, s1.name, toolName⟩ : ToolDescriptor) ∈ t0 :: rest :=
        hmm ▸ hd1
      have hd2' : (⟨s2.id, s2.name, toolName⟩ : ToolDescriptor) ∈ t0 :: rest :=
        hmm ▸ hd2
      have hlen : 1 < (dedupFirst
          ((t0 :: rest).map (fun t => t.serverId))).length := by
        refine one_lt_length_of_two_mem (a := s1.id) (b := s2.id) ?_ ?_ hne
        · rw [mem_dedupFirst, List.mem_map]
          exact ⟨_, hd1', rfl⟩
        · rw [mem_dedupFirst, List.mem_map]
          exact ⟨_, hd2', rfl⟩
      refine ⟨sortStrings (dedupFirst
        ((t0 :: rest).map (fun t => t.serverName))), ?_, ?_, ?_⟩
      · rw [toolExecResolve, hmm]
        show (if (dedupFirst ((t0 :: rest).map (fun t => t.serverId))).length > 1
            then Except.error (mcpAmbiguousToolMessage toolName
              (sortStrings (dedupFirst
                ((t0 :: rest).map (fun t => t.serverName)))))
            else resolveSingleServer servers t0.serverId)
          = Except.error (mcpAmbiguousToolMessage toolName
              (sortStrings (dedupFirst
                ((t0 :: rest).map (fun t => t.serverName)))))
        rw [if_pos hlen]
      · rw [mem_sortStrings, mem_dedupFirst, List.mem_map]
        exact ⟨_, hd1', rfl⟩
      · rw [mem_sortStrings, mem_dedupFirst, List.mem_map]
        exact ⟨_, hd2', rfl⟩
  · -- exactly one server
    intro s hU hs he ht huniq
    have hd := memMatched s hs he ht
    have hall : ∀ t ∈ (((servers.filter (fun s => s.enabled)).flatMap
        (serverToolDescriptors catalogOf)).filter
          (fun t => t.name == toolName)), t.serverId = s.id := by
      intro t htm
      rw [List.mem_filter] at htm
      rcases htm with ⟨htall, hname⟩
      rw [List.mem_flatMap] at htall
      rcases htall with ⟨sv, hsv, htool⟩
      rw [List.mem_filter] at hsv
      rw [serverToolDescriptors, List.mem_map] at htool
      rcases htool with ⟨nm, hnm, rfl⟩
      have hn : nm = toolName := by simpa [beq_iff_eq] using hname
      exact huniq sv hsv.1 hsv.2 (hn ▸ hnm)
    rcases hmm : (((servers.filter (fun s => s.enabled)).flatMap
        (serverToolDescriptors catalogOf)).filter
          (fun t => t.name == toolName)) with _ | ⟨t0, rest⟩
    · rw [hmm] at hd
      exact absurd hd (List.not_mem_nil _)
    · have hall' : ∀ t ∈ (t0 :: rest), t.serverId = s.id :=
        fun t htm => hall t (hmm ▸ htm)
      have hdedup : dedupFirst ((t0 :: rest).map (fun t => t.serverId))
          = [s.id] := by
        refine dedupFirst_all_eq (by simp) ?_
        intro x hx
        rw [List.mem_map] at hx
        rcases hx with ⟨t, htm, rfl⟩
        exact hall' t htm
      have hres : resolveSingleServer servers t0.serverId = Except.ok s := by
        rw [hall' t0 (List.mem_cons_self _ _)]
        exact resolveSingleServer_self servers s hU hs he
      rw [toolExecResolve, hmm]
      show (if (dedupFirst ((t0 :: rest).map (fun t => t.serverId))).length > 1
          then Except.error (mcpAmbiguousToolMessage toolName
            (sortStrings (dedupFirst
              ((t0 :: rest).map (fun t => t.serverName)))))
          else resolveSingleServer servers t0.serverId) = Except.ok s
      rw [hdedup, if_neg (by simp)]
      exact hres
  · -- serverToken supplied
    intro tok s hU hres
    obtain ⟨hsmem, hen⟩ := resolveSingleServer_ok_mem hres
    have hstep : toolExecResolve servers catalogOf toolName (some tok)
        = (match ((serverToolDescriptors catalogOf s).filter
            (fun t => t.name == toolName)) with
          | [] => Except.error (mcpToolNotFoundMessage toolName)
          | t0 :: _ => resolveSingleServer servers t0.serverId) := by
      rw [toolExecResolve, hres]
    refine ⟨?_, ?_, ?_⟩
    · intro ht
      rcases hmm : ((serverToolDescriptors catalogOf s).filter
          (fun t => t.name == toolName)) with _ | ⟨t0, rest⟩
      · exfalso
        have hd : (⟨s.id, s.name, toolName⟩ : ToolDescriptor) ∈
            (serverToolDescriptors catalogOf s).filter
              (fun t => t.name == toolName) := by
          rw [List.mem_filter]
          refine ⟨?_, by simp⟩
          rw [serverToolDescriptors, List.mem_map]
          exact ⟨toolName, ht, rfl⟩
        rw [hmm] at hd
        exact absurd hd (List.not_mem_nil _)
      · have ht0 : t0.serverId = s.id := by
          have hmem : t0 ∈ (serverToolDescriptors catalogOf s).filter
              (fun t => t.name == toolName) := by
            rw [hmm]
            exact List.mem_cons_self _ _
          rw [List.mem_filter] at hmem
          rcases hmem with ⟨h1, _⟩
          rw [serverToolDescriptors, List.mem_map] at h1
          rcases h1 with ⟨nm, _, rfl⟩
          rfl
        rw [hstep, hmm]
        show resolveSingleServer servers t0.serverId = Except.ok s
        rw [ht0]
        exact resolveSingleServer_self servers s hU hsmem hen
    · intro ht
      have hmm : ((serverToolDescriptors catalogOf s).filter
          (fun t => t.name == toolName)) = [] := by
        rw [List.filter_eq_nil_iff]
        intro t htm
        rw [serverToolDescriptors, List.mem_map] at htm
        rcases htm with ⟨nm, hnm, rfl⟩
        intro hname
        have hn : nm = toolName := by simpa [beq_iff_eq] using hname
        exact ht (hn ▸ hnm)
      rw [hstep, hmm]
    · intro catalogOf2 hcat
      have hstep2 : toolExecResolve servers catalogOf2 toolName (some tok)
          = (match ((serverToolDescriptors catalogOf2 s).filter
              (fun t => t.name == toolName)) with
            | [] => Except.error (mcpToolNotFoundMessage toolName)
            | t0 :: _ => resolveSingleServer servers t0.serverId) := by
        rw [toolExecResolve, hres]
      rw [hstep, hstep2]
      simp only [serverToolDescriptors, hcat]

/-- C4 witness: a two-server registry where `dup` lives on both servers and
`only1` only on the first: `zz` is not found, `only1` resolves to the first
server, and with the token `beta` the call resolves to the second server;
a catalog disagreeing outside the second server does not change the
token-scoped outcome. -/
theorem C4_tool_resolution_witness :
    (toolExecResolve
        [⟨"s1", "Alpha", true⟩, ⟨"s2", "Beta", true⟩]
        (fun sid => if sid == "s1" then ["dup", "only1"] else ["dup"])
        "zz" none
      = Except.error (mcpToolNotFoundMessage "zz"))
  ∧ (toolExecResolve
        [⟨"s1", "Alpha", true⟩, ⟨"s2", "Beta", true⟩]
        (fun sid => if sid == "s1" then ["dup", "only1"] else ["dup"])
        "only1" none
      = Except.ok ⟨"s1", "Alpha", true⟩)
  ∧ (toolExecResolve
        [⟨"s1", "Alpha", true⟩, ⟨"s2", "Beta", true⟩]
        (fun sid => if sid == "s1" then ["dup", "only1"] else ["dup"])
        "dup" (some "beta")
      = Except.ok ⟨"s2", "Beta", true⟩)
  ∧ (toolExecResolve
        [⟨"s1", "Alpha", true⟩, ⟨"s2", "Beta", true⟩]
        (fun _ => ["dup"])
        "dup" (some "beta")
      = toolExecResolve
        [⟨"s1", "Alpha", true⟩, ⟨"s2", "Beta", true⟩]
        (fun sid => if sid == "s1" then ["dup", "only1"] else ["dup"])
        "dup" (some "beta")) := by
  refine ⟨?_, ?_, ?_, ?_⟩
  · exact (C4_tool_resolution
      [⟨"s1", "Alpha", true⟩, ⟨"s2", "Beta", true⟩]
      (fun sid => if sid == "s1" then ["dup", "only1"] else ["dup"])
      "zz").1 (by decide)
  · exact (C4_tool_resolution
      [⟨"s1", "Alpha", true⟩, ⟨"s2", "Beta", true⟩]
      (fun sid => if sid == "s1" then ["dup", "only1"] else ["dup"])
      "only1").2.2.1 ⟨"s1", "Alpha", true⟩
      (by unfold UnambiguousServerIds; decide) (by decide) rfl
      (by decide) (by decide)
  · exact ((C4_tool_resolution
      [⟨"s1", "Alpha", true⟩, ⟨"s2", "Beta", true⟩]
      (fun sid => if sid == "s1" then ["dup", "only1"] else ["dup"])
      "dup").2.2.2 "beta" ⟨"s2", "Beta", true⟩
      (by unfold UnambiguousServerIds; decide) rfl).1
      (by decide)
  · exact ((C4_tool_resolution
      [⟨"s1", "Alpha", true⟩, ⟨"s2", "Beta", true⟩]
      (fun sid => if sid == "s1" then ["dup", "only1"] else ["dup"])
      "dup").2.2.2 "beta" ⟨"s2", "Beta", true⟩
      (by unfold UnambiguousServerIds; decide) rfl).2.2
      (fun _ => ["dup"]) (by decide)



/-- C7 witness: with `windowMs = 60000, max = 1`, a first request on an empty
map is accepted, an expired entry resets to a fresh window, and a second
request from the same IP within the window is rejected with 429. -/
theorem C7_rate_limiter_witness :
    ((isRateLimited 60000 1 [] "203.0.113.9" 0).1 = false)
  ∧ (isRateLimited 60000 5 [("203.0.113.9", ⟨0, 3⟩)] "203.0.113.9" 60000
      = (false, setRateEntry [("203.0.113.9", ⟨0, 3⟩)] "203.0.113.9"
          ⟨60000, 1⟩))
  ∧ ((handleApiGate 60000 1 (fun _ => none) [] none none "203.0.113.9"
        (isRateLimited 60000 1 [] "203.0.113.9" 0).2 30000).1
      = GateOutcome.rateLimited429) := by
  refine ⟨?_, ?_, ?_⟩
  · exact (C7_rate_limiter 60000 1 [] "203.0.113.9" 0 0 30000 ⟨0, 3⟩
      (fun _ => none) [] none).1 rfl
  · exact (C7_rate_limiter 60000 5 [("203.0.113.9", ⟨0, 3⟩)] "203.0.113.9"
      60000 0 0 ⟨0, 3⟩ (fun _ => none) [] none).2.1 rfl (by decide)
  · exact (C7_rate_limiter 60000 1 [] "203.0.113.9" 0 0 30000 ⟨0, 3⟩
      (fun _ => none) [] none).2.2 (by decide) rfl (by decide) (by decide)

/-- C8 witness: `Origin: https://evil.example` against an allow-list not
containing it resolves to membership (here false) and the gate rejects with
403; a request with no Origin header passes the stage. -/
theorem C8_origin_check_witness :
    (isApiOriginAllowed (fun _ => some "https://evil.example")
        ["https://app.example"] (some "https://evil.example") none
      = ["https://app.example"].contains "https://evil.example")
  ∧ ((handleApiGate 60000 5 (fun _ => some "https://evil.example")
        ["https://app.example"] (some "https://evil.example") none
        "198.51.100.7" [] 0).1 = GateOutcome.forbidden403)
  ∧ (isApiOriginAllowed (fun _ => some "https://evil.example")
        ["https://app.example"] none none = true) := by
  refine ⟨?_, ?_, ?_⟩
  · exact (C8_origin_check (fun _ => some "https://evil.example")
      ["https://app.example"] (some "https://evil.example") none
      "198.51.100.7" 60000 5 [] 0).2.1
      "https://evil.example" "https://evil.example" rfl rfl (by decide)
  · exact (C8_origin_check (fun _ => some "https://evil.example")
      ["https://app.example"] (some "https://evil.example") none
      "198.51.100.7" 60000 5 [] 0).2.2.2 rfl
  · exact ((C8_origin_check (fun _ => some "https://evil.example")
      ["https://app.example"] none none "198.51.100.7" 60000 5 [] 0).1 rfl).1

/-- C10 witness: an Origin header that fails URL parsing passes the origin
stage regardless of the configured allow-list. -/
theorem C10_unparsable_origin_passes_witness :
    isApiOriginAllowed (fun _ => none) ["https://app.example"]
        (some "not a url") none = true
  ∧ (handleApiGate 60000 5 (fun _ => none) ["https://app.example"]
      (some "not a url") none "198.51.100.7" [] 0).1
      ≠ GateOutcome.forbidden403 :=
  C10_unparsable_origin_passes (fun _ => none) ["https://app.example"]
    "not a url" none "198.51.100.7" 60000 5 [] 0 rfl


end FloPro
